import Mathlib

/-!
Verification development for the codebase-overview feature
(`src/components/CodebaseOverviewModal.tsx`).

The component aggregates file contents, assembles them into one
delimited document, issues a single generation request, and renders the
outcome through a four-region modal surface.  We embed the data model,
the document assembler, the generation lifecycle and the render logic as
executable Lean definitions and prove the specification's claims about
them.
-/

/-- A fetched file: `{ path, content }` as produced by the aggregation
collaborator (`githubService.getAllFileContents`). -/
structure FetchedFile where
  path : String
  content : String
deriving DecidableEq, Repr

/-- The fixed-width separator line of the assembled document
(83 `=` characters after the comment marker), verbatim from the template
literal in `handleGenerate`. -/
def sepLine : String :=
  "// " ++ String.mk (List.replicate 83 '=')

/-- The comment-style header line naming a file's path:
`// Path: ${file.path}`. -/
def headerFor (p : String) : String := "// Path: " ++ p

/-- The per-file template literal of `concatenatedContent`:
a leading newline, the path header line, the separator line, a blank
line, the raw content, a blank line, the closing separator line and a
trailing newline. -/
def fileBlock (f : FetchedFile) : String :=
  "\n" ++ headerFor f.path ++ "\n" ++ sepLine ++ "\n\n" ++ f.content ++ "\n\n" ++ sepLine ++ "\n"

/-- JavaScript array joining with a separator: the empty string for an
empty array, otherwise the elements interleaved with `sep`. -/
def joinSep (sep : String) : List String → String
  | [] => ""
  | [x] => x
  | x :: y :: xs => x ++ sep ++ joinSep sep (y :: xs)

/-- `concatenatedContent` from `handleGenerate`: the per-file blocks
joined with `'\n'`. -/
def concatenatedContent (files : List FetchedFile) : String :=
  joinSep "\n" (files.map fileBlock)

/-- A JavaScript thrown value as observed by the `catch` clause: either
an `Error` instance carrying a message, or any other thrown value. -/
inductive JsError where
  | jsError (message : String)
  | otherThrown
deriving DecidableEq, Repr

/-- `err instanceof Error ? err.message : 'An unknown error occurred.'`. -/
def errorMessage : JsError → String
  | .jsError m => m
  | .otherThrown => "An unknown error occurred."

/-- The message carried into the error state:
`Failed to generate overview: ${errorMessage}`. -/
def overviewFailMsg (e : JsError) : String :=
  "Failed to generate overview: " ++ errorMessage e

/-- The message of the `Error` thrown when aggregation yields no files. -/
def emptyFilesMessage : String :=
  "No readable files found in the repository to generate an overview."

/-- The component's React state triple:
`isLoading`, `overviewContent`, `error` (a string or `null`). -/
structure ModalState where
  isLoading : Bool
  overviewContent : String
  error : Option String
deriving DecidableEq, Repr

/-- The initial state: `useState(false)`, `useState('')`, `useState(null)`. -/
def initialState : ModalState := ⟨false, "", none⟩

/-- The `useEffect` body that runs when the modal is closed: reset
`overviewContent` to `''`, `error` to `null` and `isLoading` to `false`,
whatever the current state is. -/
def closeReset (_s : ModalState) : ModalState := ⟨false, "", none⟩

/-- The synchronous head of `handleGenerate`: `setIsLoading(true)`,
`setError(null)`, `setOverviewContent('')`. -/
def startGenerateState (_s : ModalState) : ModalState := ⟨true, "", none⟩

/-- The continuation of `handleGenerate` once the generation promise
settles, applied to whatever state React then holds: on success
`setOverviewContent(overview)` then `setIsLoading(false)`; on rejection
`setError` with the derived message then `setIsLoading(false)`. -/
def applyGenerationResult (r : Except JsError String) (s : ModalState) : ModalState :=
  match r with
  | .ok overview => { s with overviewContent := overview, isLoading := false }
  | .error e => { s with error := some (overviewFailMsg e), isLoading := false }

/-- `handleGenerate`, with the two awaited collaborators supplied as
settled outcomes: `agg` is the result of
`githubService.getAllFileContents`, `gen` maps the assembled document to
the result of `generateCodebaseOverview`.  Returns the state after the
attempt settles together with whether the generation service was
called. -/
def handleGenerate (agg : Except JsError (List FetchedFile))
    (gen : String → Except JsError String) (s : ModalState) : ModalState × Bool :=
  match agg with
  | .error e =>
      ({ startGenerateState s with error := some (overviewFailMsg e),
                                   isLoading := false }, false)
  | .ok files =>
      if files.length = 0 then
        ({ startGenerateState s with error := some (overviewFailMsg (.jsError emptyFilesMessage)),
                                     isLoading := false }, false)
      else
        (applyGenerationResult (gen (concatenatedContent files)) (startGenerateState s), true)

/-- `overviewContent && window.marked ? window.marked.parse(overviewContent) : ''`:
the formatting engine is an optional ambient capability. -/
def renderedHtml (overviewContent : String) (marked : Option (String → String)) : String :=
  if overviewContent ≠ "" then
    match marked with
    | some parse => parse overviewContent
    | none => ""
  else ""

/-- The four mutually exclusive regions of the modal's main area. -/
inductive Region where
  | loadingIndicator
  | errorDisplay (message : String)
  | successArticle (html : String)
  | idleCta
deriving DecidableEq, Repr

/-- JavaScript truthiness of a `string | null` value: `null` and `''`
are falsy. -/
def strTruthy : Option String → Bool
  | none => false
  | some s => s ≠ ""

/-- The nested ternary chain of the modal's main area:
`isLoading ? … : error ? … : overviewContent ? … : idle`. -/
def render (s : ModalState) (marked : Option (String → String)) : Region :=
  if s.isLoading then Region.loadingIndicator
  else if strTruthy s.error then Region.errorDisplay (s.error.getD "")
  else if s.overviewContent ≠ "" then
    Region.successArticle (renderedHtml s.overviewContent marked)
  else Region.idleCta

/-- The specification's abstract lifecycle state
`Idle | Loading | Success(content) | Failure(message)`, read off the
component state by the same discrimination the view performs. -/
inductive GenerationState where
  | idle
  | loading
  | success (content : String)
  | failure (message : String)
deriving DecidableEq, Repr

/-- The abstraction from the React state triple to the lifecycle state. -/
def genState (s : ModalState) : GenerationState :=
  if s.isLoading then GenerationState.loading
  else if strTruthy s.error then GenerationState.failure (s.error.getD "")
  else if s.overviewContent ≠ "" then GenerationState.success s.overviewContent
  else GenerationState.idle

/-- Boolean discriminator: the loading region of the main area. -/
def isLoadingRegion : Region → Bool
  | Region.loadingIndicator => true
  | _ => false

/-- Boolean discriminator: the error region of the main area. -/
def isErrorRegion : Region → Bool
  | Region.errorDisplay _ => true
  | _ => false

/-- Boolean discriminator: the rendered-overview region of the main area. -/
def isSuccessRegion : Region → Bool
  | Region.successArticle _ => true
  | _ => false

/-- Boolean discriminator: the idle call-to-action region of the main area. -/
def isIdleRegion : Region → Bool
  | Region.idleCta => true
  | _ => false

/-- Split a character sequence into its lines at `'\n'`; a text of `n`
newline characters yields `n + 1` segments. -/
def lineSplit : List Char → List (List Char)
  | [] => [[]]
  | c :: cs =>
    if c = '\n' then [] :: lineSplit cs
    else
      match lineSplit cs with
      | [] => [[c]]
      | l :: ls => (c :: l) :: ls

/-- The lines of a string, as character lists. -/
def strLines (s : String) : List (List Char) := lineSplit s.data

/-- The characters of the header line naming path `p`. -/
def headerChars (p : String) : List Char := (headerFor p).data

/-- The characters of the fixed-width separator line. -/
def sepChars : List Char := sepLine.data

/-- The line decomposition of one per-file block of the assembled
document: a blank line, the header, the separator, a blank line, the
content's lines, a blank line, the closing separator, and the empty
segment left by the block's trailing newline. -/
def blockLines (f : FetchedFile) : List (List Char) :=
  [[]] ++ lineSplit (headerChars f.path) ++ [sepChars] ++ [[]]
    ++ lineSplit f.content.data ++ [[]] ++ [sepChars] ++ [[]]

/-- Whether `needle` occurs contiguously inside `hay`. -/
def containsSeg (needle : List Char) : List Char → Bool
  | [] => needle.isEmpty
  | c :: cs => needle.isPrefixOf (c :: cs) || containsSeg needle cs

/-- How often a given line occurs in a sequence of lines. -/
def countLine (x : List Char) : List (List Char) → Nat
  | [] => 0
  | l :: ls => (if l = x then 1 else 0) + countLine x ls

/-- How often a given path occurs among a sequence of fetched files. -/
def countPath (p : String) : List FetchedFile → Nat
  | [] => 0
  | f :: fs => (if f.path = p then 1 else 0) + countPath p fs

/-- The characters a per-file block emits before the raw content. -/
def blockPre (f : FetchedFile) : List Char :=
  '\n' :: (headerChars f.path ++ '\n' :: (sepChars ++ ['\n', '\n']))

/-- The characters a per-file block emits after the raw content. -/
def blockPost : List Char := '\n' :: '\n' :: (sepChars ++ ['\n'])

/-- The per-file block exactly as the specification's words describe it
(§4.2): a path header line, a separator line, a blank line, the raw
content, a blank line and a closing separator line — with no leading or
trailing blank of its own. -/
def specBlock (f : FetchedFile) : String :=
  headerFor f.path ++ "\n" ++ sepLine ++ "\n\n" ++ f.content ++ "\n\n" ++ sepLine

/-- The assembled document as the specification's words describe it:
the spec blocks joined with a single blank line between consecutive
blocks. -/
def specAssembleSingleBlank (files : List FetchedFile) : String :=
  joinSep "\n\n" (files.map specBlock)

example : genState initialState = GenerationState.idle := by decide
example : concatenatedContent [⟨"a.txt", "x"⟩] =
    "\n// Path: a.txt\n" ++ sepLine ++ "\n\nx\n\n" ++ sepLine ++ "\n" := by rfl
example : (handleGenerate (.ok []) (fun _ => .ok "o") initialState).2 = false := by rfl
example : (handleGenerate (.ok [⟨"a", "x"⟩]) (fun _ => .ok "o") initialState).1 =
    ⟨false, "o", none⟩ := by rfl

/-! ### Basic facts about strings, lines and blocks -/

theorem strData_append (a b : String) : (a ++ b).data = a.data ++ b.data := rfl

theorem strExt {a b : String} (h : a.data = b.data) : a = b := by
  cases a; cases b; exact congrArg String.mk h

theorem nl_data : "\n".data = ['\n'] := rfl

theorem nl2_data : "\n\n".data = ['\n', '\n'] := rfl

theorem nl3_data : "\n\n\n".data = ['\n', '\n', '\n'] := rfl

theorem lineSplit_ne_nil (l : List Char) : lineSplit l ≠ [] := by
  induction l with
  | nil => simp [lineSplit]
  | cons c cs ih =>
    unfold lineSplit
    by_cases h : c = '\n'
    · simp [h]
    · simp only [if_neg h]
      cases hs : lineSplit cs with
      | nil => simp
      | cons l ls => simp

theorem lineSplit_cons_newline (b : List Char) :
    lineSplit ('\n' :: b) = [] :: lineSplit b := by
  simp [lineSplit]

theorem lineSplit_cons_ne {c : Char} {cs l : List Char} {ls : List (List Char)}
    (h : c ≠ '\n') (hs : lineSplit cs = l :: ls) :
    lineSplit (c :: cs) = (c :: l) :: ls := by
  unfold lineSplit
  rw [if_neg h, hs]

theorem lineSplit_append (a b : List Char) :
    lineSplit (a ++ '\n' :: b) = lineSplit a ++ lineSplit b := by
  induction a with
  | nil => simp [lineSplit]
  | cons c cs ih =>
    by_cases h : c = '\n'
    · subst h
      rw [List.cons_append, lineSplit_cons_newline, lineSplit_cons_newline, ih,
        List.cons_append]
    · cases hs : lineSplit cs with
      | nil => exact absurd hs (lineSplit_ne_nil cs)
      | cons l ls =>
        have h1 : lineSplit (cs ++ '\n' :: b) = l :: (ls ++ lineSplit b) := by
          rw [ih, hs, List.cons_append]
        rw [List.cons_append, lineSplit_cons_ne h h1, lineSplit_cons_ne h hs,
          List.cons_append]

theorem lineSplit_no_newline {l : List Char} (h : '\n' ∉ l) : lineSplit l = [l] := by
  induction l with
  | nil => rfl
  | cons c cs ih =>
    have hc : c ≠ '\n' := fun e => h (by simp [e])
    have hcs : '\n' ∉ cs := fun m => h (List.mem_cons_of_mem _ m)
    unfold lineSplit
    simp only [if_neg hc, ih hcs]

theorem lineSplit_sep : lineSplit sepChars = [sepChars] :=
  lineSplit_no_newline (by decide)

theorem headerChars_eq (p : String) : headerChars p = "// Path: ".data ++ p.data := by
  simp [headerChars, headerFor, strData_append]

theorem headerChars_ne_nil (p : String) : headerChars p ≠ [] := by
  intro h
  have h4 : (headerChars p).take 4 = [] := by rw [h]; rfl
  have hL : (headerChars p).take 4 = ['/', '/', ' ', 'P'] := rfl
  rw [hL] at h4
  exact absurd h4 (by decide)

theorem headerChars_ne_sep (p : String) : headerChars p ≠ sepChars := by
  intro h
  have h4 : (headerChars p).take 4 = sepChars.take 4 := by rw [h]
  have hL : (headerChars p).take 4 = ['/', '/', ' ', 'P'] := rfl
  have hR : sepChars.take 4 = ['/', '/', ' ', '='] := rfl
  rw [hL, hR] at h4
  exact absurd h4 (by decide)

theorem headerChars_inj {p q : String} (h : headerChars p = headerChars q) : p = q := by
  rw [headerChars_eq, headerChars_eq] at h
  exact strExt (List.append_cancel_left h)

theorem newline_not_mem_headerChars {p : String} (hp : '\n' ∉ p.data) :
    '\n' ∉ headerChars p := by
  rw [headerChars_eq]
  intro h
  rcases List.mem_append.1 h with h1 | h2
  · exact absurd h1 (by decide)
  · exact hp h2

theorem fileBlock_data (f : FetchedFile) :
    (fileBlock f).data
      = '\n' :: (headerChars f.path ++ '\n' :: (sepChars ++ '\n' :: '\n' ::
          (f.content.data ++ '\n' :: '\n' :: (sepChars ++ ['\n'])))) := by
  simp [fileBlock, headerChars, sepChars, strData_append, nl_data, nl2_data]

theorem fileBlock_data_decomp (f : FetchedFile) :
    (fileBlock f).data = blockPre f ++ f.content.data ++ blockPost := by
  rw [fileBlock_data]
  simp [blockPre, blockPost]

theorem lineSplit_fileBlock (f : FetchedFile) :
    lineSplit (fileBlock f).data = blockLines f := by
  rw [fileBlock_data, lineSplit_cons_newline, lineSplit_append]
  have h1 : sepChars ++ '\n' :: '\n' :: (f.content.data ++ '\n' :: '\n' :: (sepChars ++ ['\n']))
      = sepChars ++ '\n' :: ('\n' :: (f.content.data ++ '\n' :: '\n' :: (sepChars ++ ['\n']))) := rfl
  rw [h1, lineSplit_append, lineSplit_cons_newline]
  have h2 : f.content.data ++ '\n' :: '\n' :: (sepChars ++ ['\n'])
      = f.content.data ++ '\n' :: ('\n' :: (sepChars ++ ['\n'])) := rfl
  rw [h2, lineSplit_append, lineSplit_cons_newline]
  have h3 : sepChars ++ ['\n'] = sepChars ++ '\n' :: ([] : List Char) := rfl
  rw [h3, lineSplit_append, lineSplit_sep, blockLines]
  simp [lineSplit]

theorem concatenated_cons (f g : FetchedFile) (fs : List FetchedFile) :
    concatenatedContent (f :: g :: fs)
      = fileBlock f ++ "\n" ++ concatenatedContent (g :: fs) := rfl

theorem concatenated_data_cons (f g : FetchedFile) (fs : List FetchedFile) :
    (concatenatedContent (f :: g :: fs)).data
      = (fileBlock f).data ++ '\n' :: (concatenatedContent (g :: fs)).data := by
  rw [concatenated_cons]
  simp [strData_append, nl_data]

theorem strLines_concatenated (files : List FetchedFile) (h : files ≠ []) :
    strLines (concatenatedContent files) = (files.map blockLines).flatten := by
  induction files with
  | nil => exact absurd rfl h
  | cons f fs ih =>
    cases fs with
    | nil =>
      show lineSplit (concatenatedContent [f]).data = _
      have h1 : concatenatedContent [f] = fileBlock f := rfl
      rw [h1, lineSplit_fileBlock]
      simp
    | cons g gs =>
      show lineSplit (concatenatedContent (f :: g :: gs)).data = _
      rw [concatenated_data_cons, lineSplit_append, lineSplit_fileBlock]
      have h2 := ih (by simp)
      rw [strLines] at h2
      rw [h2]
      simp

theorem countLine_append (x : List Char) (a b : List (List Char)) :
    countLine x (a ++ b) = countLine x a + countLine x b := by
  induction a with
  | nil => simp [countLine]
  | cons l ls ih => simp [countLine, ih]; omega

theorem countLine_not_mem {x : List Char} {ls : List (List Char)} (h : x ∉ ls) :
    countLine x ls = 0 := by
  induction ls with
  | nil => rfl
  | cons l ls ih =>
    have h1 : l ≠ x := fun e => h (by simp [e])
    have h2 : x ∉ ls := fun m => h (List.mem_cons_of_mem _ m)
    simp [countLine, h1, ih h2]

theorem countLine_blockLines (f : FetchedFile) (p : String)
    (hp : '\n' ∉ f.path.data)
    (hc : headerChars p ∉ lineSplit f.content.data) :
    countLine (headerChars p) (blockLines f) = if f.path = p then 1 else 0 := by
  unfold blockLines
  rw [lineSplit_no_newline (newline_not_mem_headerChars hp)]
  rw [countLine_append, countLine_append, countLine_append, countLine_append,
    countLine_append, countLine_append, countLine_append]
  have hnil : countLine (headerChars p) [([] : List Char)] = 0 := by
    simp [countLine, (headerChars_ne_nil p).symm]
  have hsep : countLine (headerChars p) [sepChars] = 0 := by
    simp [countLine]
    exact fun e => absurd e.symm (headerChars_ne_sep p)
  have hcnt : countLine (headerChars p) (lineSplit f.content.data) = 0 :=
    countLine_not_mem hc
  rw [hnil, hsep, hcnt]
  have hhd : countLine (headerChars p) [headerChars f.path]
      = if f.path = p then 1 else 0 := by
    simp only [countLine]
    by_cases he : f.path = p
    · rw [if_pos (he ▸ rfl), if_pos he]
    · rw [if_neg (fun e => he (headerChars_inj e)), if_neg he]
  rw [hhd]
  omega

theorem countLine_blocks (p : String) (files : List FetchedFile)
    (hp : ∀ f ∈ files, '\n' ∉ f.path.data)
    (hc : ∀ f ∈ files, headerChars p ∉ lineSplit f.content.data) :
    countLine (headerChars p) ((files.map blockLines).flatten) = countPath p files := by
  induction files with
  | nil => rfl
  | cons f fs ih =>
    rw [List.map_cons, List.flatten_cons, countLine_append]
    rw [countLine_blockLines f p (hp f (by simp)) (hc f (by simp))]
    rw [ih (fun g hg => hp g (List.mem_cons_of_mem _ hg))
        (fun g hg => hc g (List.mem_cons_of_mem _ hg))]
    rfl

theorem countPath_eq_zero {p : String} {files : List FetchedFile}
    (h : p ∉ files.map FetchedFile.path) : countPath p files = 0 := by
  induction files with
  | nil => rfl
  | cons f fs ih =>
    rw [List.map_cons] at h
    have h1 : f.path ≠ p := fun e => h (by simp [e])
    have h2 : p ∉ fs.map FetchedFile.path := fun m => h (List.mem_cons_of_mem _ m)
    simp [countPath, h1, ih h2]

theorem countPath_eq_one {files : List FetchedFile} {f : FetchedFile}
    (hnd : (files.map FetchedFile.path).Nodup) (hmem : f ∈ files) :
    countPath f.path files = 1 := by
  induction files with
  | nil => cases hmem
  | cons g gs ih =>
    rw [List.map_cons, List.nodup_cons] at hnd
    rcases List.mem_cons.1 hmem with rfl | hm
    · have hz : countPath f.path gs = 0 := countPath_eq_zero hnd.1
      simp [countPath, hz]
    · have hne : g.path ≠ f.path := by
        intro e
        exact hnd.1 (e ▸ List.mem_map_of_mem FetchedFile.path hm)
      simp [countPath, hne, ih hnd.2 hm]

theorem content_decomp {files : List FetchedFile} {f : FetchedFile} (hmem : f ∈ files) :
    ∃ a b, (concatenatedContent files).data = a ++ f.content.data ++ b := by
  induction files with
  | nil => cases hmem
  | cons g gs ih =>
    rcases List.mem_cons.1 hmem with rfl | hm
    · cases gs with
      | nil =>
        refine ⟨blockPre f, blockPost, ?_⟩
        have h1 : concatenatedContent [f] = fileBlock f := rfl
        rw [h1, fileBlock_data_decomp]
      | cons g' gs' =>
        refine ⟨blockPre f, blockPost ++ '\n' :: (concatenatedContent (g' :: gs')).data, ?_⟩
        rw [concatenated_data_cons, fileBlock_data_decomp]
        simp
    · cases gs with
      | nil => cases hm
      | cons g' gs' =>
        obtain ⟨a, b, hab⟩ := ih hm
        refine ⟨(fileBlock g).data ++ '\n' :: a, b, ?_⟩
        rw [concatenated_data_cons, hab]
        simp

theorem fileBlock_eq_specBlock (f : FetchedFile) :
    fileBlock f = "\n" ++ specBlock f ++ "\n" := by
  apply strExt
  simp [fileBlock, specBlock, strData_append]

theorem msg_append_ne_empty (x : String) : ("Failed to generate overview: " ++ x) ≠ "" := by
  intro h
  have h2 : ("Failed to generate overview: " ++ x).data = [] := by rw [h]
  rw [strData_append] at h2
  exact absurd (List.append_eq_nil.1 h2).1 (by decide)

theorem genState_failure {m : String} (hm : m ≠ "") :
    genState ⟨false, "", some m⟩ = GenerationState.failure m := by
  simp [genState, strTruthy, hm]

theorem handleGenerate_nonempty (files : List FetchedFile)
    (gen : String → Except JsError String) (s : ModalState) (hne : files ≠ []) :
    handleGenerate (Except.ok files) gen s
      = (applyGenerationResult (gen (concatenatedContent files)) (startGenerateState s),
         true) := by
  simp only [handleGenerate]
  rw [if_neg (fun h0 => hne (List.length_eq_zero.1 h0))]

/-! ### Claim theorems -/

/-- C1: whenever aggregation resolves with zero files, the attempt that
began in the loading state settles in the failure state carrying the
fixed message indicating no readable files were found, and the
generation service is never called. -/
theorem empty_aggregation_fails_without_generation :
    ∀ (gen : String → Except JsError String) (s : ModalState),
      (startGenerateState s).isLoading = true
      ∧ (handleGenerate (Except.ok []) gen s).1
          = ⟨false, "", some ("Failed to generate overview: " ++ emptyFilesMessage)⟩
      ∧ genState (handleGenerate (Except.ok []) gen s).1
          = GenerationState.failure ("Failed to generate overview: " ++ emptyFilesMessage)
      ∧ (handleGenerate (Except.ok []) gen s).2 = false := by
  intro gen s
  exact ⟨rfl, rfl, rfl, rfl⟩

/-- C4: the code evaluated at the failing input: in the success state for
`"## Summary"` with no formatting engine available, the view renders an
empty article, so the displayed output is empty and does not contain
`"Summary"` — the raw-content fallback the claim requires is absent
(the renderer-absence gap of spec §9). -/
theorem renderer_unavailable_empty_output :
    genState ⟨false, "## Summary", none⟩ = GenerationState.success "## Summary"
    ∧ renderedHtml "## Summary" none = ""
    ∧ render ⟨false, "## Summary", none⟩ none = Region.successArticle ""
    ∧ containsSeg "Summary".data "".data = false := by
  decide

/-- C5: the code evaluated at the failing input: after the close-reset
the state is idle, yet applying a late-arriving successful response
transitions it to the success state — the stale response is applied
rather than discarded (the stale-response race of spec §9). -/
theorem stale_response_applied :
    genState (closeReset ⟨true, "", none⟩) = GenerationState.idle
    ∧ applyGenerationResult (Except.ok "hello") (closeReset ⟨true, "", none⟩)
        = ⟨false, "hello", none⟩
    ∧ applyGenerationResult (Except.ok "hello") (closeReset ⟨true, "", none⟩)
        ≠ closeReset ⟨true, "", none⟩
    ∧ genState (applyGenerationResult (Except.ok "hello") (closeReset ⟨true, "", none⟩))
        = GenerationState.success "hello" := by
  decide

/-- C7: the close-reset transition maps every component state — idle,
loading, success and failure alike — to the idle state with the content
and error payloads cleared, and the view then shows the idle
call-to-action. -/
theorem reset_unconditional :
    ∀ (s : ModalState) (marked : Option (String → String)),
      closeReset s = initialState
      ∧ genState (closeReset s) = GenerationState.idle
      ∧ (closeReset s).overviewContent = ""
      ∧ (closeReset s).error = none
      ∧ (closeReset s).isLoading = false
      ∧ render (closeReset s) marked = Region.idleCta := by
  intro s marked
  exact ⟨rfl, rfl, rfl, rfl, rfl, rfl⟩

/-- C10: however an attempt settles — aggregation rejection, zero files,
generation success or rejection — the resulting state is not loading,
and likewise for a late settlement applied to any state React then
holds. -/
theorem loading_always_settles :
    ∀ (agg : Except JsError (List FetchedFile)) (gen : String → Except JsError String)
      (s t : ModalState) (r : Except JsError String),
      (handleGenerate agg gen s).1.isLoading = false
      ∧ (applyGenerationResult r t).isLoading = false := by
  intro agg gen s t r
  constructor
  · cases agg with
    | error e => rfl
    | ok files =>
      simp only [handleGenerate]
      by_cases h : files.length = 0
      · rw [if_pos h]
      · rw [if_neg h]
        cases gen (concatenatedContent files) with
        | ok o => rfl
        | error e => rfl
  · cases r with
    | ok o => rfl
    | error e => rfl

/-- C3: a rejection of the aggregation call or of the generation call
settles the attempt in the failure state whose message is the underlying
error's message when the thrown value is an `Error` and the generic
fallback string otherwise, prefixed with the overview-failure prefix; in
particular a generation rejection with message `"quota exceeded"` yields
a failure message containing `"quota exceeded"`. -/
theorem failure_message_propagation :
    (∀ m : String, errorMessage (JsError.jsError m) = m)
    ∧ errorMessage JsError.otherThrown = "An unknown error occurred."
    ∧ (∀ (e : JsError) (gen : String → Except JsError String) (s : ModalState),
        (handleGenerate (Except.error e) gen s).1
          = ⟨false, "", some ("Failed to generate overview: " ++ errorMessage e)⟩
        ∧ genState (handleGenerate (Except.error e) gen s).1
          = GenerationState.failure ("Failed to generate overview: " ++ errorMessage e))
    ∧ (∀ (files : List FetchedFile) (gen : String → Except JsError String)
        (s : ModalState) (e : JsError),
        files ≠ [] → gen (concatenatedContent files) = Except.error e →
        (handleGenerate (Except.ok files) gen s).1
          = ⟨false, "", some ("Failed to generate overview: " ++ errorMessage e)⟩)
    ∧ (∀ (files : List FetchedFile) (s : ModalState),
        files ≠ [] →
        ∃ msg, (handleGenerate (Except.ok files)
              (fun _ => Except.error (JsError.jsError "quota exceeded")) s).1.error
            = some msg
          ∧ containsSeg "quota exceeded".data msg.data = true) := by
  refine ⟨fun m => rfl, rfl, fun e gen s => ⟨rfl, genState_failure (msg_append_ne_empty _)⟩,
    ?_, ?_⟩
  · intro files gen s e hne hgen
    rw [handleGenerate_nonempty files gen s hne, hgen]
    rfl
  · intro files s hne
    rw [handleGenerate_nonempty files _ s hne]
    exact ⟨"Failed to generate overview: quota exceeded", rfl, by decide⟩

/-- C3 witness: the theorem applied at a concrete one-file aggregation
whose generation call rejects with message `"quota exceeded"`. -/
theorem failure_message_propagation_witness :
    (([⟨"a", "x"⟩] : List FetchedFile) ≠ [])
    ∧ ((fun _ : String => (Except.error (JsError.jsError "quota exceeded") :
          Except JsError String)) (concatenatedContent [⟨"a", "x"⟩])
        = Except.error (JsError.jsError "quota exceeded"))
    ∧ (handleGenerate (Except.ok [⟨"a", "x"⟩])
          (fun _ => Except.error (JsError.jsError "quota exceeded")) initialState).1
        = ⟨false, "",
           some ("Failed to generate overview: "
             ++ errorMessage (JsError.jsError "quota exceeded"))⟩
    ∧ (∃ msg, (handleGenerate (Except.ok [⟨"a", "x"⟩])
          (fun _ => Except.error (JsError.jsError "quota exceeded")) initialState).1.error
        = some msg ∧ containsSeg "quota exceeded".data msg.data = true) :=
  ⟨by decide, rfl,
   failure_message_propagation.2.2.2.1 [⟨"a", "x"⟩] _ initialState
     (JsError.jsError "quota exceeded") (by decide) rfl,
   failure_message_propagation.2.2.2.2 [⟨"a", "x"⟩] initialState (by decide)⟩

/-- C8: in every component state the main area shows exactly one of the
four mutually exclusive regions, and the shown region corresponds to the
constructor of the unique abstract lifecycle state of that component
state. -/
theorem regions_mutually_exclusive :
    ∀ (s : ModalState) (marked : Option (String → String)),
      ((isLoadingRegion (render s marked)).toNat
        + (isErrorRegion (render s marked)).toNat
        + (isSuccessRegion (render s marked)).toNat
        + (isIdleRegion (render s marked)).toNat = 1)
      ∧ (isLoadingRegion (render s marked) = true ↔ genState s = GenerationState.loading)
      ∧ (isErrorRegion (render s marked) = true
          ↔ ∃ m, genState s = GenerationState.failure m)
      ∧ (isSuccessRegion (render s marked) = true
          ↔ ∃ c, genState s = GenerationState.success c)
      ∧ (isIdleRegion (render s marked) = true ↔ genState s = GenerationState.idle) := by
  intro s marked
  rcases s with ⟨l, c, e⟩
  unfold render genState
  cases l with
  | true =>
    simp [isLoadingRegion, isErrorRegion, isSuccessRegion, isIdleRegion]
  | false =>
    by_cases he : strTruthy e = true
    · simp [he, isLoadingRegion, isErrorRegion, isSuccessRegion, isIdleRegion]
    · rw [Bool.not_eq_true] at he
      by_cases hc : c = ""
      · simp [he, hc, isLoadingRegion, isErrorRegion, isSuccessRegion, isIdleRegion]
      · simp [he, hc, isLoadingRegion, isErrorRegion, isSuccessRegion, isIdleRegion]

/-- C9: when the generation request resolves with the empty string, the
settled component state equals the initial idle state, so the view shows
the idle call-to-action (with the start action available again) and the
outcome is observationally indistinguishable from idle. -/
theorem empty_overview_renders_idle :
    ∀ (files : List FetchedFile) (gen : String → Except JsError String)
      (s : ModalState) (marked : Option (String → String)),
      files ≠ [] → gen (concatenatedContent files) = Except.ok "" →
      (handleGenerate (Except.ok files) gen s).1 = initialState
      ∧ genState (handleGenerate (Except.ok files) gen s).1 = GenerationState.idle
      ∧ render (handleGenerate (Except.ok files) gen s).1 marked = Region.idleCta
      ∧ render (handleGenerate (Except.ok files) gen s).1 marked
          = render initialState marked := by
  intro files gen s marked hne hgen
  have h1 : (handleGenerate (Except.ok files) gen s).1 = initialState := by
    rw [handleGenerate_nonempty files gen s hne, hgen]
    rfl
  rw [h1]
  exact ⟨rfl, rfl, rfl, rfl⟩

/-- C9 witness: the theorem applied at a concrete one-file aggregation
whose generation call resolves with the empty string. -/
theorem empty_overview_renders_idle_witness :
    (([⟨"b", "y"⟩] : List FetchedFile) ≠ [])
    ∧ ((fun _ : String => (Except.ok "" : Except JsError String))
          (concatenatedContent [⟨"b", "y"⟩]) = Except.ok "")
    ∧ ((handleGenerate (Except.ok [⟨"b", "y"⟩]) (fun _ => Except.ok "") initialState).1
          = initialState
      ∧ genState (handleGenerate (Except.ok [⟨"b", "y"⟩])
          (fun _ => Except.ok "") initialState).1 = GenerationState.idle
      ∧ render (handleGenerate (Except.ok [⟨"b", "y"⟩])
          (fun _ => Except.ok "") initialState).1 none = Region.idleCta
      ∧ render (handleGenerate (Except.ok [⟨"b", "y"⟩])
          (fun _ => Except.ok "") initialState).1 none = render initialState none) :=
  ⟨by decide, rfl,
   empty_overview_renders_idle [⟨"b", "y"⟩] (fun _ => Except.ok "") initialState none
     (by decide) rfl⟩

/-- C2 (amended): for every non-empty sequence of fetched files whose
paths are pairwise distinct and newline-free and whose contents contain
no line equal to a header line of any file of the sequence, the
assembled document's lines are exactly the per-file line blocks in input
order (so the blocks of two consecutive files are never merged into
one), each file's path occurs exactly once as a header line, and each
file's content appears verbatim. -/
theorem assemble_headers_contents_order (files : List FetchedFile)
    (hne : files ≠ [])
    (hnd : (files.map FetchedFile.path).Nodup)
    (hp : ∀ f ∈ files, '\n' ∉ f.path.data)
    (hc : ∀ f ∈ files, ∀ g ∈ files, headerChars g.path ∉ lineSplit f.content.data) :
    strLines (concatenatedContent files) = (files.map blockLines).flatten
    ∧ ∀ f ∈ files,
        countLine (headerChars f.path) (strLines (concatenatedContent files)) = 1
        ∧ ∃ a b, (concatenatedContent files).data = a ++ f.content.data ++ b := by
  refine ⟨strLines_concatenated files hne, fun f hf => ⟨?_, content_decomp hf⟩⟩
  rw [strLines_concatenated files hne,
    countLine_blocks f.path files hp (fun g hg => hc g hg f hf)]
  exact countPath_eq_one hnd hf

/-- C2 witness: the amended theorem applied at a concrete one-file
sequence. -/
theorem assemble_headers_contents_order_witness :
    (([⟨"a.txt", "x"⟩] : List FetchedFile) ≠ []
      ∧ (([⟨"a.txt", "x"⟩] : List FetchedFile).map FetchedFile.path).Nodup
      ∧ (∀ f ∈ ([⟨"a.txt", "x"⟩] : List FetchedFile), '\n' ∉ f.path.data)
      ∧ (∀ f ∈ ([⟨"a.txt", "x"⟩] : List FetchedFile),
          ∀ g ∈ ([⟨"a.txt", "x"⟩] : List FetchedFile),
          headerChars g.path ∉ lineSplit f.content.data))
    ∧ (strLines (concatenatedContent [⟨"a.txt", "x"⟩])
          = (([⟨"a.txt", "x"⟩] : List FetchedFile).map blockLines).flatten
      ∧ ∀ f ∈ ([⟨"a.txt", "x"⟩] : List FetchedFile),
          countLine (headerChars f.path) (strLines (concatenatedContent [⟨"a.txt", "x"⟩])) = 1
          ∧ ∃ a b, (concatenatedContent [⟨"a.txt", "x"⟩]).data
              = a ++ f.content.data ++ b) :=
  ⟨⟨by decide, by decide, by decide, by decide⟩,
   assemble_headers_contents_order [⟨"a.txt", "x"⟩]
     (by decide) (by decide) (by decide) (by decide)⟩

/-- C2 counterexample: a file whose content is itself a header line for
its own path makes the path occur twice as a header line of the
assembled document, refuting the claim's "exactly once" over arbitrary
non-empty sequences. -/
theorem assemble_header_twice_counterexample :
    ((⟨"a", "// Path: a"⟩ : FetchedFile) ∈ ([⟨"a", "// Path: a"⟩] : List FetchedFile))
    ∧ ([⟨"a", "// Path: a"⟩] : List FetchedFile) ≠ []
    ∧ countLine (headerChars "a")
        (strLines (concatenatedContent [⟨"a", "// Path: a"⟩])) = 2
    ∧ ¬ countLine (headerChars "a")
        (strLines (concatenatedContent [⟨"a", "// Path: a"⟩])) = 1 := by
  decide

/-- C6 (amended): the assembled document opens with a blank line, closes
with a newline, and consists of the spec's per-file blocks — header
line, separator line, blank line, content, blank line, closing separator
line, the same fixed format for every file — in input order, with
consecutive blocks separated by exactly two blank lines (not one). -/
theorem assemble_block_layout (files : List FetchedFile) (hne : files ≠ []) :
    concatenatedContent files = "\n" ++ joinSep "\n\n\n" (files.map specBlock) ++ "\n" := by
  induction files with
  | nil => exact absurd rfl hne
  | cons f fs ih =>
    cases fs with
    | nil =>
      have h1 : concatenatedContent [f] = fileBlock f := rfl
      rw [h1, fileBlock_eq_specBlock]
      rfl
    | cons g gs =>
      rw [concatenated_cons, ih (by simp), fileBlock_eq_specBlock]
      apply strExt
      have h2 : joinSep "\n\n\n" ((f :: g :: gs).map specBlock)
          = specBlock f ++ "\n\n\n" ++ joinSep "\n\n\n" ((g :: gs).map specBlock) := rfl
      rw [h2]
      simp [strData_append, nl_data, nl3_data]

/-- C6 witness: the amended theorem applied at a concrete one-file
sequence. -/
theorem assemble_block_layout_witness :
    (([⟨"a.md", "z"⟩] : List FetchedFile) ≠ [])
    ∧ concatenatedContent [⟨"a.md", "z"⟩]
        = "\n" ++ joinSep "\n\n\n" (([⟨"a.md", "z"⟩] : List FetchedFile).map specBlock)
          ++ "\n" :=
  ⟨by decide, assemble_block_layout [⟨"a.md", "z"⟩] (by decide)⟩

/-- C6 counterexample: already for two one-line files the source's
assembled document differs from the spec-described assembly whose
consecutive blocks are separated by a single blank line. -/
theorem assemble_single_blank_counterexample :
    concatenatedContent [⟨"a", "x"⟩, ⟨"b", "y"⟩]
      ≠ specAssembleSingleBlank [⟨"a", "x"⟩, ⟨"b", "y"⟩] := by
  decide
